import Mathlib

/-!
Shallow embedding of the Pomodoro session controller from
`src/components/pomodoro-timer.tsx` (repository jvsapienza/pomodoit-mk1).

The component's React state (`PomodoroState`, the `sessionStart` ref-like
state, and the persisted session log) is modelled as an explicit
`Controller` record; each event handler of the component becomes a pure
state-transition function.  Timestamps (`Date.now()`) are passed in
explicitly as natural numbers.  The persistence sink (`localStorage` plus
`JSON.parse`/`JSON.stringify`) is modelled in two layers further below.
-/

/-- `type TimerStatus = "idle" | "running" | "paused"` -/
inductive TimerStatus where
  | idle
  | running
  | paused
deriving DecidableEq

/-- `type SessionType = "work" | "break"` (`break` is a Lean keyword, so the
break variant is named `brk`). -/
inductive SessionType where
  | work
  | brk
deriving DecidableEq

/-- `interface SessionLog` — one immutable record of a closed session. -/
structure SessionLog where
  userName : String
  sessionType : SessionType
  startTime : Nat
  endTime : Nat
  interrupted : Bool
deriving DecidableEq

/-- `interface PomodoroState` — the component's `useState` record. -/
structure PomodoroState where
  workDuration : Nat
  breakDuration : Nat
  currentTime : Nat
  currentSession : SessionType
  timerStatus : TimerStatus
  userName : String
deriving DecidableEq

/-- The whole mutable state owned by the component: the `PomodoroState`
record, the `sessionStart` optional timestamp, and the sequence of log
entries the component has appended to the persistence sink. -/
structure Controller where
  state : PomodoroState
  sessionStart : Option Nat
  logs : List SessionLog
deriving DecidableEq

/-- The initial state passed to `useState` (lines 50–57): 90 minutes work,
5 minutes break, idle work session with no user name; `sessionStart`
starts out `null` and no log entry has been written. -/
def initialController : Controller :=
  { state :=
      { workDuration := 90 * 60
        breakDuration := 5 * 60
        currentTime := 90 * 60
        currentSession := SessionType.work
        timerStatus := TimerStatus.idle
        userName := "" }
    sessionStart := none
    logs := [] }

/-- `handleUserNameChange` (lines 226–228): store the typed name. -/
def handleUserNameChange (u : String) (c : Controller) : Controller :=
  { c with state := { c.state with userName := u } }

/-- `handleEndSession(wasInterrupted)` (lines 100–117): no-op when
`sessionStart` is `null`; otherwise build a `SessionLog` from the current
state and the open start timestamp, append it via the persistence sink,
and clear `sessionStart`.  `now` stands for `Date.now()` at the call. -/
def handleEndSession (wasInterrupted : Bool) (now : Nat) (c : Controller) : Controller :=
  match c.sessionStart with
  | none => c
  | some start =>
      let newSessionLog : SessionLog :=
        { userName := c.state.userName
          sessionType := c.state.currentSession
          startTime := start
          endTime := now
          interrupted := wasInterrupted }
      { c with logs := c.logs ++ [newSessionLog], sessionStart := none }

/-- `handleSessionSwitch` (lines 81–92): flip the session type, reload
`currentTime` from the configured duration of the new type, and
(`startNewSession`, lines 95–97) open a new `sessionStart` at `now`. -/
def handleSessionSwitch (now : Nat) (c : Controller) : Controller :=
  let isWorkSession := c.state.currentSession = SessionType.work
  { c with
      state :=
        { c.state with
            currentSession := if isWorkSession then SessionType.brk else SessionType.work
            currentTime := if isWorkSession then c.state.breakDuration else c.state.workDuration }
      sessionStart := some now }

/-- `handleStartPause` (lines 133–153).  The first component of the result
is the validation message surfaced by `alert` when `userName` is empty
(`none` when no alert fired); the second is the controller afterwards.
An empty `userName` is the only falsy string, so `!state.userName` is
modelled as equality with `""`. -/
def handleStartPause (now : Nat) (c : Controller) : Option String × Controller :=
  if c.state.userName = "" then
    (some "Por favor, insira seu nome antes de iniciar!", c)
  else if c.state.timerStatus = TimerStatus.running then
    (none, { c with state := { c.state with timerStatus := TimerStatus.paused } })
  else
    (none,
      { c with
          state := { c.state with timerStatus := TimerStatus.running }
          sessionStart := if c.sessionStart = none then some now else c.sessionStart })

/-- `handleInterrupt` (lines 156–171): only acts when the status is not
idle; closes the session as interrupted, then resets to the Work/Idle
baseline with `currentTime = workDuration`. -/
def handleInterrupt (now : Nat) (c : Controller) : Controller :=
  if c.state.timerStatus ≠ TimerStatus.idle then
    let c1 := handleEndSession true now c
    { c1 with
        state :=
          { c1.state with
              currentTime := c1.state.workDuration
              currentSession := SessionType.work
              timerStatus := TimerStatus.idle } }
  else c

/-- `handleReset` (lines 174–188): when running or paused, close the
session as interrupted; in every case reset to the Work/Idle baseline. -/
def handleReset (now : Nat) (c : Controller) : Controller :=
  let c1 :=
    if c.state.timerStatus = TimerStatus.running ∨ c.state.timerStatus = TimerStatus.paused then
      handleEndSession true now c
    else c
  { c1 with
      state :=
        { c1.state with
            currentTime := c1.state.workDuration
            currentSession := SessionType.work
            timerStatus := TimerStatus.idle } }

/-- `Math.max(60, d ± 60)` from `handleDurationChange` (lines 193–210),
computed over the integers exactly as JavaScript does and returned as a
natural number (the clamp makes the result at least 60, hence
non-negative). -/
def adjustDuration (d : Nat) (increment : Bool) : Nat :=
  (max 60 ((d : Int) + (if increment then 60 else -60))).toNat

/-- `handleDurationChange(type, increment)` (lines 191–214): clamp-adjust
the chosen duration by ±60 and, when the adjusted kind is the currently
active session type, also load `currentTime` with the new duration. -/
def handleDurationChange (type : SessionType) (increment : Bool) (c : Controller) : Controller :=
  match type with
  | SessionType.work =>
      { c with
          state :=
            { c.state with
                workDuration := adjustDuration c.state.workDuration increment
                currentTime :=
                  if c.state.currentSession = SessionType.work then
                    adjustDuration c.state.workDuration increment
                  else c.state.currentTime } }
  | SessionType.brk =>
      { c with
          state :=
            { c.state with
                breakDuration := adjustDuration c.state.breakDuration increment
                currentTime :=
                  if c.state.currentSession = SessionType.brk then
                    adjustDuration c.state.breakDuration increment
                  else c.state.currentTime } }

/-- One delivery of the countdown effect (lines 66–78).  The interval only
exists while the status is running and `currentTime > 0`; a firing
decrements `currentTime`, and when the decrement reaches zero the effect
re-runs and performs `handleEndSession(false)` followed by
`handleSessionSwitch()` (the status stays running).  In any other state a
tick has no effect. -/
def tick (now : Nat) (c : Controller) : Controller :=
  if c.state.timerStatus = TimerStatus.running ∧ 0 < c.state.currentTime then
    let c1 := { c with state := { c.state with currentTime := c.state.currentTime - 1 } }
    if c1.state.currentTime = 0 then
      handleSessionSwitch now (handleEndSession false now c1)
    else c1
  else c

/-!
## Persistence sink

`saveSessionToLocalStorage` (lines 120–130) reads the raw string stored
under the key `"pomodoitSessions"`, runs it through `JSON.parse` when it
is truthy, pushes the new record, and writes the array back with
`JSON.stringify`.  The raw string is abstracted by the outcome of
`JSON.parse` on it: it is either absent (`getItem` returned `null`, or
the stored string is empty and hence falsy), or it parses to a
well-formed array of `SessionLog` records, or `JSON.parse` throws a
`SyntaxError` on it.  A thrown exception is modelled with `Except.error`;
the code contains no `try`/`catch`, so an error escapes the function. -/
inductive StoredBlob where
  | absent
  | parsed (logs : List SessionLog)
  | malformed
deriving DecidableEq

/-- `saveSessionToLocalStorage` (lines 120–130): the returned list is the
array written back by `localStorage.setItem`.  On a malformed blob
`JSON.parse(storedData)` throws before anything is written. -/
def saveSessionToLocalStorage (blob : StoredBlob) (session : SessionLog) :
    Except String (List SessionLog) :=
  match blob with
  | StoredBlob.absent => Except.ok [session]
  | StoredBlob.parsed sessionLogs => Except.ok (sessionLogs ++ [session])
  | StoredBlob.malformed => Except.error "SyntaxError: JSON.parse: unexpected token"

/-!
## JSON value model for the persisted blob

`JSON.stringify`/`JSON.parse` are platform built-ins, not code of this
repository, so the serialized form is modelled at the level of JSON
values: a `SessionLog` record is encoded as a JSON object with the five
fields the component writes, and the blob is the JSON array of those
objects.  Decoding inverts the encoding field by field.  Timestamps from
`Date.now()` are non-negative integers, represented exactly. -/
inductive Json where
  | null
  | jbool (b : Bool)
  | jnum (n : Int)
  | jstr (s : String)
  | jarr (elems : List Json)
  | jobj (fields : List (String × Json))

/-- The JSON string `"work"` or `"break"` stored in the `sessionType`
field. -/
def sessionTypeToString (t : SessionType) : String :=
  match t with
  | SessionType.work => "work"
  | SessionType.brk => "break"

/-- Inverse of `sessionTypeToString`. -/
def sessionTypeOfString (s : String) : Option SessionType :=
  if s = "work" then some SessionType.work
  else if s = "break" then some SessionType.brk
  else none

/-- Encoding of one `SessionLog` record as the JSON object
`JSON.stringify` produces for it. -/
def encodeSessionLog (e : SessionLog) : Json :=
  Json.jobj
    [("userName", Json.jstr e.userName),
     ("sessionType", Json.jstr (sessionTypeToString e.sessionType)),
     ("startTime", Json.jnum (e.startTime : Int)),
     ("endTime", Json.jnum (e.endTime : Int)),
     ("interrupted", Json.jbool e.interrupted)]

/-- Decoding of one `SessionLog` record from a JSON value; `none` when a
field is missing or has the wrong shape. -/
def decodeSessionLog (j : Json) : Option SessionLog :=
  match j with
  | Json.jobj fields =>
      match fields.lookup "userName", fields.lookup "sessionType",
            fields.lookup "startTime", fields.lookup "endTime",
            fields.lookup "interrupted" with
      | some (Json.jstr u), some (Json.jstr ty), some (Json.jnum st),
        some (Json.jnum en), some (Json.jbool i) =>
          match sessionTypeOfString ty, st.toNat', en.toNat' with
          | some t, some stn, some enn =>
              some { userName := u, sessionType := t, startTime := stn,
                     endTime := enn, interrupted := i }
          | _, _, _ => none
      | _, _, _, _, _ => none
  | _ => none

/-- Encoding of the whole persisted blob: a JSON array of records. -/
def encodeLogs (logs : List SessionLog) : Json :=
  Json.jarr (logs.map encodeSessionLog)

/-- Decoding of the persisted blob; `none` unless the value is an array
whose every element decodes to a record. -/
def decodeLogs (j : Json) : Option (List SessionLog) :=
  match j with
  | Json.jarr elems => elems.mapM decodeSessionLog
  | _ => none

/-!
## Formatting helper -/

/-- `String.prototype.padStart(2, "0")`: prepend zeros until the length
is at least two (a no-op on strings of length ≥ 2). -/
def padStartTwoZero (s : String) : String :=
  String.mk (List.replicate (2 - s.length) '0') ++ s

/-- `formatTime` (lines 217–223): `Math.floor(seconds / 60)` and
`seconds % 60`, each rendered in decimal and left-padded with zeros to
two characters, joined by a colon.  For a non-negative JavaScript number
these coincide with natural division and remainder. -/
def formatTime (seconds : Nat) : String :=
  padStartTwoZero (Nat.repr (seconds / 60)) ++ ":" ++ padStartTwoZero (Nat.repr (seconds % 60))

/-!
## Reachable states

A controller state is reachable when it arises from the initial state by
some sequence of user events (typing a name, the start/pause button, the
interrupt button, the reset button, the duration ± buttons) and countdown
ticks.  `handleStartPause` may also surface a validation alert; only the
resulting state matters for reachability. -/
inductive Reachable : Controller → Prop where
  | init : Reachable initialController
  | setName (u : String) {c : Controller} : Reachable c → Reachable (handleUserNameChange u c)
  | startPause (now : Nat) {c : Controller} :
      Reachable c → Reachable (handleStartPause now c).2
  | interrupt (now : Nat) {c : Controller} : Reachable c → Reachable (handleInterrupt now c)
  | reset (now : Nat) {c : Controller} : Reachable c → Reachable (handleReset now c)
  | config (type : SessionType) (increment : Bool) {c : Controller} :
      Reachable c → Reachable (handleDurationChange type increment c)
  | tickEv (now : Nat) {c : Controller} : Reachable c → Reachable (tick now c)

/-- The inductive invariant of the controller: the open `sessionStart`
timestamp exists exactly while the status is not idle, and an idle
controller always sits at the Work baseline with `currentTime` equal to
the configured work duration. -/
def ControllerInv (c : Controller) : Prop :=
  (c.sessionStart ≠ none ↔ c.state.timerStatus ≠ TimerStatus.idle) ∧
  (c.state.timerStatus = TimerStatus.idle →
    c.state.currentSession = SessionType.work ∧
    c.state.currentTime = c.state.workDuration)

lemma controllerInv_initial : ControllerInv initialController := by
  constructor
  · simp [initialController]
  · intro _
    simp [initialController]

lemma controllerInv_setName (u : String) {c : Controller} (h : ControllerInv c) :
    ControllerInv (handleUserNameChange u c) := by
  obtain ⟨h1, h2⟩ := h
  exact ⟨h1, h2⟩

lemma controllerInv_startPause (now : Nat) {c : Controller} (h : ControllerInv c) :
    ControllerInv (handleStartPause now c).2 := by
  obtain ⟨h1, h2⟩ := h
  unfold handleStartPause
  by_cases hname : c.state.userName = ""
  · simp only [hname, if_pos rfl]
    exact ⟨h1, h2⟩
  · simp only [if_neg hname]
    by_cases hrun : c.state.timerStatus = TimerStatus.running
    · simp only [if_pos hrun]
      constructor
      · simpa [hrun] using h1
      · intro hidle
        simp at hidle
    · simp only [if_neg hrun]
      constructor
      · constructor
        · intro _
          simp
        · intro _
          by_cases hs : c.sessionStart = none
          · simp [hs]
          · simp [hs]
      · intro hidle
        simp at hidle

/-- `handleEndSession` only touches the log and the open timestamp; the
`PomodoroState` record is unchanged. -/
lemma handleEndSession_state (w : Bool) (now : Nat) (c : Controller) :
    (handleEndSession w now c).state = c.state := by
  unfold handleEndSession
  cases c.sessionStart <;> rfl

/-- The open timestamp is `none` after `handleEndSession`, whatever it was
before. -/
lemma handleEndSession_sessionStart_none (w : Bool) (now : Nat) (c : Controller) :
    (handleEndSession w now c).sessionStart = none := by
  unfold handleEndSession
  cases hs : c.sessionStart with
  | none => exact hs
  | some t => rfl

/-- The appended suffix of the log after `handleEndSession`: one record
built from the open timestamp, or nothing when no session is open. -/
lemma handleEndSession_logs (w : Bool) (now : Nat) (c : Controller) (t : Nat)
    (h : c.sessionStart = some t) :
    (handleEndSession w now c).logs =
      c.logs ++ [{ userName := c.state.userName, sessionType := c.state.currentSession,
                   startTime := t, endTime := now, interrupted := w }] := by
  unfold handleEndSession
  rw [h]

lemma controllerInv_interrupt (now : Nat) {c : Controller} (h : ControllerInv c) :
    ControllerInv (handleInterrupt now c) := by
  unfold handleInterrupt
  by_cases hidle : c.state.timerStatus = TimerStatus.idle
  · simp only [ne_eq, hidle, not_true_eq_false, if_false]
    exact h
  · simp only [ne_eq, hidle, not_false_eq_true, if_true]
    refine ⟨?_, ?_⟩
    · constructor
      · intro hne
        exact absurd (handleEndSession_sessionStart_none true now c) (by simpa using hne)
      · intro hcontra
        simp at hcontra
    · intro _
      simp

lemma controllerInv_reset (now : Nat) {c : Controller} (h : ControllerInv c) :
    ControllerInv (handleReset now c) := by
  obtain ⟨h1, h2⟩ := h
  unfold handleReset
  by_cases hact : c.state.timerStatus = TimerStatus.running ∨
      c.state.timerStatus = TimerStatus.paused
  · simp only [if_pos hact]
    refine ⟨?_, ?_⟩
    · constructor
      · intro hne
        exact absurd (handleEndSession_sessionStart_none true now c) (by simpa using hne)
      · intro hcontra
        simp at hcontra
    · intro _
      simp
  · have hidle : c.state.timerStatus = TimerStatus.idle := by
      cases hst : c.state.timerStatus with
      | idle => rfl
      | running => exact absurd (Or.inl hst) hact
      | paused => exact absurd (Or.inr hst) hact
    have hstart : c.sessionStart = none := by
      by_contra hne
      exact absurd hidle (h1.mp hne)
    simp only [if_neg hact]
    refine ⟨?_, ?_⟩
    · constructor
      · intro hne
        exact absurd hstart (by simpa using hne)
      · intro hcontra
        simp at hcontra
    · intro _
      simp

lemma controllerInv_config (type : SessionType) (increment : Bool) {c : Controller}
    (h : ControllerInv c) : ControllerInv (handleDurationChange type increment c) := by
  obtain ⟨h1, h2⟩ := h
  cases type with
  | work =>
      constructor
      · exact h1
      · intro hidle
        have ⟨hw, _⟩ := h2 hidle
        simp [handleDurationChange, hw]
  | brk =>
      constructor
      · exact h1
      · intro hidle
        have ⟨hw, hct⟩ := h2 hidle
        simp [handleDurationChange, hw, hct]

lemma controllerInv_tick (now : Nat) {c : Controller} (h : ControllerInv c) :
    ControllerInv (tick now c) := by
  obtain ⟨h1, h2⟩ := h
  unfold tick
  split
  · rename_i hrun
    dsimp only
    split
    · rename_i hz
      constructor
      · constructor
        · intro _
          simp [handleSessionSwitch, handleEndSession_state, hrun.1]
        · intro _
          simp [handleSessionSwitch]
      · intro hidle
        simp [handleSessionSwitch, handleEndSession_state, hrun.1] at hidle
    · rename_i hz
      constructor
      · simpa [hrun.1] using h1
      · intro hidle
        simp [hrun.1] at hidle
  · exact ⟨h1, h2⟩

/-- Every reachable controller state satisfies the invariant. -/
lemma reachable_inv {c : Controller} (h : Reachable c) : ControllerInv c := by
  induction h with
  | init => exact controllerInv_initial
  | setName u _ ih => exact controllerInv_setName u ih
  | startPause now _ ih => exact controllerInv_startPause now ih
  | interrupt now _ ih => exact controllerInv_interrupt now ih
  | reset now _ ih => exact controllerInv_reset now ih
  | config type increment _ ih => exact controllerInv_config type increment ih
  | tickEv now _ ih => exact controllerInv_tick now ih

/-!
## Lemmas about decimal rendering and padding (for the formatting claim) -/

/-- The accumulator is never shortened by `Nat.toDigitsCore`. -/
lemma length_le_toDigitsCore (fuel n : Nat) (ds : List Char) :
    ds.length ≤ (Nat.toDigitsCore 10 fuel n ds).length := by
  induction fuel generalizing n ds with
  | zero => simp [Nat.toDigitsCore]
  | succ f ih =>
      simp only [Nat.toDigitsCore]
      split
      · simp
      · exact le_trans (by simp) (ih (n / 10) (Nat.digitChar (n % 10) :: ds))

/-- With enough fuel, a number of at least two decimal digits contributes
at least two characters. -/
lemma two_le_toDigitsCore_length (fuel : Nat) :
    ∀ n : Nat, ∀ ds : List Char, n < fuel → 10 ≤ n →
      2 + ds.length ≤ (Nat.toDigitsCore 10 fuel n ds).length := by
  induction fuel with
  | zero => intro n ds h _; omega
  | succ f ih =>
      intro n ds hfuel hn
      have hdiv : 1 ≤ n / 10 := (Nat.one_le_div_iff (by norm_num)).mpr (by omega)
      simp only [Nat.toDigitsCore]
      rw [if_neg (by omega)]
      by_cases h10 : 10 ≤ n / 10
      · have hlt : n / 10 < f := by
          have := Nat.div_lt_self (by omega : 0 < n) (by norm_num : 1 < 10)
          omega
        have := ih (n / 10) (Nat.digitChar (n % 10) :: ds) hlt h10
        simp only [List.length_cons] at this
        omega
      · cases f with
        | zero => omega
        | succ g =>
            have hz : n / 10 / 10 = 0 := Nat.div_eq_of_lt (by omega)
            simp only [Nat.toDigitsCore]
            rw [if_pos hz]
            simp only [List.length_cons]
            omega

/-- A natural number of at least 10 has a decimal representation of at
least two characters. -/
lemma two_le_length_repr (n : Nat) (h : 10 ≤ n) : 2 ≤ (Nat.repr n).length := by
  have hlen : (Nat.repr n).length = (Nat.toDigits 10 n).length := rfl
  rw [hlen]
  have := two_le_toDigitsCore_length (n + 1) n [] (by omega) h
  simpa [Nat.toDigits] using this

/-- The padded string counts `2 - length` zeros plus the original. -/
lemma padStartTwoZero_length (s : String) :
    (padStartTwoZero s).length = (2 - s.length) + s.length := by
  unfold padStartTwoZero
  rw [String.length_append]
  simp

/-- Padding to two characters never yields fewer than two characters. -/
lemma two_le_padStartTwoZero_length (s : String) : 2 ≤ (padStartTwoZero s).length := by
  rw [padStartTwoZero_length]
  omega

/-- Padding is the identity on strings that already have two characters. -/
lemma padStartTwoZero_of_two_le {s : String} (h : 2 ≤ s.length) :
    padStartTwoZero s = s := by
  unfold padStartTwoZero
  have hz : 2 - s.length = 0 := by omega
  rw [hz]
  simp

/-- The configured duration a `SessionType` selects in the state. -/
def durationOf (type : SessionType) (s : PomodoroState) : Nat :=
  match type with
  | SessionType.work => s.workDuration
  | SessionType.brk => s.breakDuration

/-- The session type other than the given one. -/
def otherType (type : SessionType) : SessionType :=
  match type with
  | SessionType.work => SessionType.brk
  | SessionType.brk => SessionType.work

/-- `adjustDuration` computes exactly the JavaScript value
`Math.max(60, d ± 60)` over the integers. -/
lemma adjustDuration_int (d : Nat) (increment : Bool) :
    ((adjustDuration d increment : Nat) : Int) =
      max 60 ((d : Int) + (if increment then 60 else -60)) := by
  unfold adjustDuration
  rw [Int.toNat_of_nonneg]
  cases increment with
  | false => simp
  | true =>
      simp only [if_true]
      have : (0 : Int) ≤ 60 := by norm_num
      exact le_trans this (le_max_left _ _)

/-!
## The claims -/

/-- C9: `formatTime` renders a non-negative second count `s` as `mm:ss`:
the minutes `s / 60` and the seconds `s % 60` in decimal, each zero-padded
to at least two characters, with the minutes component not truncated or
wrapped once it has two or more digits; in particular
`formatTime 0 = "00:00"`, `formatTime 65 = "01:05"`, and
`formatTime 6000 = "100:00"`. -/
theorem formatTime_renders_mm_ss :
    (∀ s : Nat,
        formatTime s =
          padStartTwoZero (Nat.repr (s / 60)) ++ ":" ++ padStartTwoZero (Nat.repr (s % 60)) ∧
        2 ≤ (padStartTwoZero (Nat.repr (s / 60))).length ∧
        2 ≤ (padStartTwoZero (Nat.repr (s % 60))).length ∧
        (10 ≤ s / 60 → padStartTwoZero (Nat.repr (s / 60)) = Nat.repr (s / 60))) ∧
    formatTime 0 = "00:00" ∧ formatTime 65 = "01:05" ∧ formatTime 6000 = "100:00" := by
  refine ⟨fun s => ⟨rfl, two_le_padStartTwoZero_length _, two_le_padStartTwoZero_length _,
    fun h => padStartTwoZero_of_two_le (two_le_length_repr _ h)⟩, rfl, rfl, rfl⟩

/-- C1 (code bug): on an absent blob, `saveSessionToLocalStorage` writes a
one-element sequence; but on a malformed blob `JSON.parse` throws, so the
append fails with a propagated error instead of self-healing to a
one-element sequence. -/
theorem saveSession_malformed_throws :
    saveSessionToLocalStorage StoredBlob.absent
        { userName := "ana", sessionType := SessionType.work, startTime := 0, endTime := 5,
          interrupted := false } =
      Except.ok [{ userName := "ana", sessionType := SessionType.work, startTime := 0,
                   endTime := 5, interrupted := false }] ∧
    saveSessionToLocalStorage StoredBlob.malformed
        { userName := "ana", sessionType := SessionType.work, startTime := 0, endTime := 5,
          interrupted := false } =
      Except.error "SyntaxError: JSON.parse: unexpected token" := by
  exact ⟨rfl, rfl⟩

/-- C3: `handleDurationChange` sets the adjusted duration to
`max 60 (old ± 60)`, leaves the other duration alone, loads
`currentTime` with the new duration exactly when the adjusted kind is the
current session type (whatever the status), and changes nothing else. -/
theorem configure_adjusts_duration (c : Controller) (type : SessionType) (increment : Bool) :
    (durationOf type (handleDurationChange type increment c).state : Int) =
      max 60 ((durationOf type c.state : Int) + (if increment then 60 else -60)) ∧
    durationOf (otherType type) (handleDurationChange type increment c).state =
      durationOf (otherType type) c.state ∧
    (handleDurationChange type increment c).state.currentTime =
      (if c.state.currentSession = type then
        durationOf type (handleDurationChange type increment c).state
       else c.state.currentTime) ∧
    (handleDurationChange type increment c).state.timerStatus = c.state.timerStatus ∧
    (handleDurationChange type increment c).state.currentSession = c.state.currentSession ∧
    (handleDurationChange type increment c).state.userName = c.state.userName ∧
    (handleDurationChange type increment c).sessionStart = c.sessionStart ∧
    (handleDurationChange type increment c).logs = c.logs := by
  cases type with
  | work =>
      refine ⟨?_, ?_, ?_, ?_, ?_, ?_, ?_, ?_⟩ <;>
        simp [handleDurationChange, durationOf, otherType, adjustDuration_int]
  | brk =>
      refine ⟨?_, ?_, ?_, ?_, ?_, ?_, ?_, ?_⟩ <;>
        simp [handleDurationChange, durationOf, otherType, adjustDuration_int]

/-- C5: with an empty `userName`, `handleStartPause` surfaces the
validation message and leaves the controller untouched: in particular the
status does not change and no `sessionStart` is opened. -/
theorem startPause_empty_name_rejected (c : Controller) (now : Nat)
    (h : c.state.userName = "") :
    (handleStartPause now c).1 = some "Por favor, insira seu nome antes de iniciar!" ∧
    (handleStartPause now c).2 = c ∧
    (handleStartPause now c).2.state.timerStatus = c.state.timerStatus ∧
    (handleStartPause now c).2.sessionStart = c.sessionStart := by
  refine ⟨?_, ?_, ?_, ?_⟩ <;> simp [handleStartPause, h]

/-- Witness for C5 at the initial controller, whose `userName` is empty. -/
theorem startPause_empty_name_rejected_witness :
    initialController.state.userName = "" ∧
    ((handleStartPause 3 initialController).1 =
        some "Por favor, insira seu nome antes de iniciar!" ∧
      (handleStartPause 3 initialController).2 = initialController ∧
      (handleStartPause 3 initialController).2.state.timerStatus =
        initialController.state.timerStatus ∧
      (handleStartPause 3 initialController).2.sessionStart =
        initialController.sessionStart) :=
  ⟨rfl, startPause_empty_name_rejected initialController 3 rfl⟩

/-- C7: from any reachable idle state, `handleReset` is a complete no-op:
it appends no log entry and returns the controller unchanged. -/
theorem reset_idle_noop (c : Controller) (now : Nat) (h : Reachable c)
    (hidle : c.state.timerStatus = TimerStatus.idle) :
    handleReset now c = c := by
  obtain ⟨h1, h2⟩ := reachable_inv h
  obtain ⟨hsess, htime⟩ := h2 hidle
  unfold handleReset
  rw [if_neg (by simp [hidle])]
  cases c with
  | mk st ss lg =>
      cases st with
      | mk wd bd ct cs ts un =>
          simp only at hidle hsess htime
          simp [hidle, hsess, htime]

/-- Witness for C7 at the initial controller, which is idle. -/
theorem reset_idle_noop_witness :
    Reachable initialController ∧
    initialController.state.timerStatus = TimerStatus.idle ∧
    handleReset 5 initialController = initialController :=
  ⟨Reachable.init, rfl, reset_idle_noop initialController 5 Reachable.init rfl⟩

/-- C6: in every reachable state, the open `sessionStart` timestamp is
present exactly while a session is in progress (status running or paused)
and absent exactly while the status is idle. -/
theorem sessionStart_iff_in_progress (c : Controller) (h : Reachable c) :
    (c.sessionStart ≠ none ↔
      (c.state.timerStatus = TimerStatus.running ∨
       c.state.timerStatus = TimerStatus.paused)) ∧
    (c.sessionStart = none ↔ c.state.timerStatus = TimerStatus.idle) := by
  obtain ⟨h1, _⟩ := reachable_inv h
  have hsplit : (c.state.timerStatus ≠ TimerStatus.idle) ↔
      (c.state.timerStatus = TimerStatus.running ∨
       c.state.timerStatus = TimerStatus.paused) := by
    cases c.state.timerStatus <;> simp
  constructor
  · exact h1.trans hsplit
  · constructor
    · intro hnone
      by_contra hne
      exact absurd hnone (by simpa using h1.mpr hne)
    · intro hidle
      by_contra hne
      exact absurd hidle (h1.mp hne)

/-- Witness for C6 at the initial controller. -/
theorem sessionStart_iff_in_progress_witness :
    Reachable initialController ∧
    ((initialController.sessionStart ≠ none ↔
        (initialController.state.timerStatus = TimerStatus.running ∨
         initialController.state.timerStatus = TimerStatus.paused)) ∧
      (initialController.sessionStart = none ↔
        initialController.state.timerStatus = TimerStatus.idle)) :=
  ⟨Reachable.init, sessionStart_iff_in_progress initialController Reachable.init⟩

/-- C4: from any reachable state with a session in progress,
`handleInterrupt` appends exactly one log entry, carrying
`interrupted = true`, and resets the controller to the idle Work baseline
with `currentTime = workDuration`; from an idle state it is a no-op. -/
theorem interrupt_closes_and_resets (c : Controller) (now : Nat) (h : Reachable c) :
    (c.state.timerStatus ≠ TimerStatus.idle →
      ∃ t, c.sessionStart = some t ∧
        handleInterrupt now c =
          { state :=
              { c.state with
                  currentTime := c.state.workDuration
                  currentSession := SessionType.work
                  timerStatus := TimerStatus.idle }
            sessionStart := none
            logs := c.logs ++
              [{ userName := c.state.userName, sessionType := c.state.currentSession,
                 startTime := t, endTime := now, interrupted := true }] }) ∧
    (c.state.timerStatus = TimerStatus.idle → handleInterrupt now c = c) := by
  obtain ⟨h1, _⟩ := reachable_inv h
  constructor
  · intro hne
    have hsome : c.sessionStart ≠ none := h1.mpr hne
    cases hs : c.sessionStart with
    | none => exact absurd hs hsome
    | some t =>
        refine ⟨t, rfl, ?_⟩
        unfold handleInterrupt
        rw [if_pos (by simpa using hne)]
        unfold handleEndSession
        rw [hs]
  · intro hidle
    unfold handleInterrupt
    rw [if_neg (by simp [hidle])]

/-- Witness for C4 at a concrete reachable running state: type the name
"ana", press start at time 100, interrupt at time 200. -/
theorem interrupt_closes_and_resets_witness :
    Reachable (handleStartPause 100 (handleUserNameChange "ana" initialController)).2 ∧
    (((handleStartPause 100 (handleUserNameChange "ana" initialController)).2.state.timerStatus ≠
        TimerStatus.idle →
      ∃ t,
        (handleStartPause 100 (handleUserNameChange "ana" initialController)).2.sessionStart =
          some t ∧
        handleInterrupt 200
            (handleStartPause 100 (handleUserNameChange "ana" initialController)).2 =
          { state :=
              { (handleStartPause 100
                    (handleUserNameChange "ana" initialController)).2.state with
                  currentTime :=
                    (handleStartPause 100
                        (handleUserNameChange "ana" initialController)).2.state.workDuration
                  currentSession := SessionType.work
                  timerStatus := TimerStatus.idle }
            sessionStart := none
            logs :=
              (handleStartPause 100 (handleUserNameChange "ana" initialController)).2.logs ++
                [{ userName :=
                     (handleStartPause 100
                         (handleUserNameChange "ana" initialController)).2.state.userName
                   sessionType :=
                     (handleStartPause 100
                         (handleUserNameChange "ana" initialController)).2.state.currentSession
                   startTime := t, endTime := 200, interrupted := true }] }) ∧
      ((handleStartPause 100 (handleUserNameChange "ana" initialController)).2.state.timerStatus =
          TimerStatus.idle →
        handleInterrupt 200
            (handleStartPause 100 (handleUserNameChange "ana" initialController)).2 =
          (handleStartPause 100 (handleUserNameChange "ana" initialController)).2)) :=
  ⟨Reachable.startPause 100 (Reachable.setName "ana" Reachable.init),
    interrupt_closes_and_resets
      (handleStartPause 100 (handleUserNameChange "ana" initialController)).2 200
      (Reachable.startPause 100 (Reachable.setName "ana" Reachable.init))⟩

/-- Decoding inverts encoding on a single record. -/
lemma decodeSessionLog_encodeSessionLog (e : SessionLog) :
    decodeSessionLog (encodeSessionLog e) = some e := by
  cases e with
  | mk u ty st en i =>
      cases ty <;>
        simp [encodeSessionLog, decodeSessionLog, List.lookup, sessionTypeToString,
          sessionTypeOfString, Int.toNat']

/-- Decoding inverts encoding on the whole persisted array. -/
lemma decodeLogs_encodeLogs (logs : List SessionLog) :
    decodeLogs (encodeLogs logs) = some logs := by
  unfold decodeLogs encodeLogs
  induction logs with
  | nil => rfl
  | cons e rest ih =>
      simp only [List.map_cons, List.mapM_cons, decodeSessionLog_encodeSessionLog,
        Option.pure_def, Option.bind_eq_bind, Option.some_bind]
      simp only [List.map] at ih
      rw [ih]
      rfl

/-- Every controller operation leaves the already-persisted entries in
place, extending the log by a (possibly empty) suffix. -/
lemma handleEndSession_logs_suffix (w : Bool) (now : Nat) (c : Controller) :
    ∃ s, (handleEndSession w now c).logs = c.logs ++ s := by
  unfold handleEndSession
  cases c.sessionStart with
  | none => exact ⟨[], by simp⟩
  | some t => exact ⟨_, rfl⟩

lemma tick_logs_suffix (now : Nat) (c : Controller) :
    ∃ s, (tick now c).logs = c.logs ++ s := by
  unfold tick
  split
  · dsimp only
    split
    · have := handleEndSession_logs_suffix false now
        { c with state := { c.state with currentTime := c.state.currentTime - 1 } }
      obtain ⟨s, hsfx⟩ := this
      exact ⟨s, by simpa [handleSessionSwitch] using hsfx⟩
    · exact ⟨[], by simp⟩
  · exact ⟨[], by simp⟩

lemma interrupt_logs_suffix (now : Nat) (c : Controller) :
    ∃ s, (handleInterrupt now c).logs = c.logs ++ s := by
  unfold handleInterrupt
  split
  · obtain ⟨s, hsfx⟩ := handleEndSession_logs_suffix true now c
    exact ⟨s, hsfx⟩
  · exact ⟨[], by simp⟩

lemma reset_logs_suffix (now : Nat) (c : Controller) :
    ∃ s, (handleReset now c).logs = c.logs ++ s := by
  unfold handleReset
  split
  · obtain ⟨s, hsfx⟩ := handleEndSession_logs_suffix true now c
    exact ⟨s, hsfx⟩
  · exact ⟨[], by simp⟩

lemma startPause_logs_suffix (now : Nat) (c : Controller) :
    ∃ s, ((handleStartPause now c).2).logs = c.logs ++ s := by
  unfold handleStartPause
  split
  · exact ⟨[], by simp⟩
  · split
    · exact ⟨[], by simp⟩
    · exact ⟨[], by simp⟩

/-- C8: appending `e1` then `e2` to a well-formed persisted sequence
yields that sequence extended by `[e1, e2]` in order; the structural
JSON round-trip of the blob preserves entry order and every field value;
and no controller operation edits or removes already-persisted entries. -/
theorem append_roundtrip_append_only (logs : List SessionLog) (e1 e2 : SessionLog) :
    saveSessionToLocalStorage (StoredBlob.parsed logs) e1 = Except.ok (logs ++ [e1]) ∧
    (saveSessionToLocalStorage (StoredBlob.parsed logs) e1).bind
        (fun l1 => saveSessionToLocalStorage (StoredBlob.parsed l1) e2) =
      Except.ok (logs ++ [e1, e2]) ∧
    decodeLogs (encodeLogs (logs ++ [e1, e2])) = some (logs ++ [e1, e2]) ∧
    (∀ c : Controller, ∀ now : Nat,
      (∃ s, (tick now c).logs = c.logs ++ s) ∧
      (∃ s, (handleInterrupt now c).logs = c.logs ++ s) ∧
      (∃ s, (handleReset now c).logs = c.logs ++ s) ∧
      (∃ s, ((handleStartPause now c).2).logs = c.logs ++ s)) := by
  refine ⟨rfl, ?_, decodeLogs_encodeLogs _, ?_⟩
  · show Except.ok ((logs ++ [e1]) ++ [e2]) = Except.ok (logs ++ [e1, e2])
    rw [List.append_assoc]
    rfl
  intro c now
  exact ⟨tick_logs_suffix now c, interrupt_logs_suffix now c,
    reset_logs_suffix now c, startPause_logs_suffix now c⟩

/-- A tick of a running controller with more than one second left only
decrements the countdown. -/
lemma tick_running_pos (now : Nat) (c : Controller)
    (hrun : c.state.timerStatus = TimerStatus.running) (hpos : 1 < c.state.currentTime) :
    tick now c = { c with state := { c.state with currentTime := c.state.currentTime - 1 } } := by
  unfold tick
  rw [if_pos ⟨hrun, by omega⟩]
  dsimp only
  rw [if_neg (by omega)]

/-- The final tick of a running session: the countdown reaches zero, the
session is closed as non-interrupted, and the controller switches to the
other session type. -/
lemma tick_running_one (now : Nat) (c : Controller)
    (hrun : c.state.timerStatus = TimerStatus.running) (hone : c.state.currentTime = 1) :
    tick now c =
      handleSessionSwitch now
        (handleEndSession false now
          { c with state := { c.state with currentTime := 0 } }) := by
  unfold tick
  rw [if_pos ⟨hrun, by omega⟩]
  dsimp only
  rw [if_pos (by omega)]
  rw [show c.state.currentTime - 1 = 0 by omega]

/-- Iterating `tick` strictly fewer times than the remaining seconds of a
fresh running Work session only counts the clock down. -/
lemma tick_iter_countdown (now w b m : Nat) (u : String) (t0 : Nat)
    (logs : List SessionLog) (k : Nat) (hk : k < m) :
    (tick now)^[k]
        { state := { workDuration := w, breakDuration := b, currentTime := m,
                     currentSession := SessionType.work, timerStatus := TimerStatus.running,
                     userName := u },
          sessionStart := some t0, logs := logs } =
      { state := { workDuration := w, breakDuration := b, currentTime := m - k,
                   currentSession := SessionType.work, timerStatus := TimerStatus.running,
                   userName := u },
        sessionStart := some t0, logs := logs } := by
  induction k with
  | zero => simp
  | succ n ih =>
      have hn : n < m := by omega
      rw [Function.iterate_succ_apply', ih hn]
      rw [tick_running_pos now _ rfl (by simpa using by omega : 1 < m - n)]
      have harith : m - n - 1 = m - (n + 1) := by omega
      simp [harith]

/-- C2: from a freshly started Work session (running, `currentTime`
loaded with the configured work duration, both durations at least 60),
exactly `workDuration` ticks land in a running Break session with
`currentTime = breakDuration`, and exactly one log entry is appended over
the whole sequence, non-interrupted and of type Work. -/
theorem work_session_completes_to_break (w b : Nat) (hw : 60 ≤ w) (_hb : 60 ≤ b)
    (u : String) (t0 now : Nat) (logs : List SessionLog) :
    (tick now)^[w]
        { state := { workDuration := w, breakDuration := b, currentTime := w,
                     currentSession := SessionType.work, timerStatus := TimerStatus.running,
                     userName := u },
          sessionStart := some t0, logs := logs } =
      { state := { workDuration := w, breakDuration := b, currentTime := b,
                   currentSession := SessionType.brk, timerStatus := TimerStatus.running,
                   userName := u },
        sessionStart := some now,
        logs := logs ++ [{ userName := u, sessionType := SessionType.work,
                           startTime := t0, endTime := now, interrupted := false }] } := by
  obtain ⟨n, rfl⟩ : ∃ n, w = n + 1 := ⟨w - 1, by omega⟩
  rw [Function.iterate_succ_apply', tick_iter_countdown now (n + 1) b (n + 1) u t0 logs n (by omega)]
  rw [tick_running_one now _ rfl (by simp)]
  simp [handleSessionSwitch, handleEndSession]

/-- Witness for C2 with both durations at the 60-second floor. -/
theorem work_session_completes_to_break_witness :
    60 ≤ 60 ∧
    (tick 2)^[60]
        { state := { workDuration := 60, breakDuration := 60, currentTime := 60,
                     currentSession := SessionType.work, timerStatus := TimerStatus.running,
                     userName := "a" },
          sessionStart := some 1, logs := [] } =
      { state := { workDuration := 60, breakDuration := 60, currentTime := 60,
                   currentSession := SessionType.brk, timerStatus := TimerStatus.running,
                   userName := "a" },
        sessionStart := some 2,
        logs := [{ userName := "a", sessionType := SessionType.work,
                   startTime := 1, endTime := 2, interrupted := false }] } :=
  ⟨by omega, work_session_completes_to_break 60 60 (by omega) (by omega) "a" 1 2 []⟩

/-- C10: a closed session's log entry carries the `userName` held at
closure time: editing the name mid-session makes the produced entry carry
the edited name. -/
theorem logEntry_userName_at_closure (c : Controller) (u : String) (now t : Nat)
    (hst : c.state.timerStatus ≠ TimerStatus.idle) (hs : c.sessionStart = some t) :
    (handleInterrupt now (handleUserNameChange u c)).logs =
      c.logs ++ [{ userName := u, sessionType := c.state.currentSession,
                   startTime := t, endTime := now, interrupted := true }] := by
  unfold handleInterrupt
  rw [if_pos (by simpa [handleUserNameChange] using hst)]
  unfold handleEndSession
  have hs' : (handleUserNameChange u c).sessionStart = some t := hs
  rw [hs']
  rfl

/-- Witness for C10: start a session as "ana", rename to "bea"
mid-session, interrupt; the entry carries "bea". -/
theorem logEntry_userName_at_closure_witness :
    ((handleStartPause 100 (handleUserNameChange "ana" initialController)).2.state.timerStatus ≠
        TimerStatus.idle) ∧
    ((handleStartPause 100 (handleUserNameChange "ana" initialController)).2.sessionStart =
        some 100) ∧
    (handleInterrupt 200
        (handleUserNameChange "bea"
          (handleStartPause 100 (handleUserNameChange "ana" initialController)).2)).logs =
      (handleStartPause 100 (handleUserNameChange "ana" initialController)).2.logs ++
        [{ userName := "bea"
           sessionType :=
             (handleStartPause 100
                 (handleUserNameChange "ana" initialController)).2.state.currentSession
           startTime := 100, endTime := 200, interrupted := true }] :=
  ⟨by decide, rfl,
    logEntry_userName_at_closure
      (handleStartPause 100 (handleUserNameChange "ana" initialController)).2
      "bea" 200 100 (by decide) rfl⟩
